import Mathlib

/-!
Shallow embedding of `db/unitdb/adapter.go` from unit-io/unitd-go.

Bytes are modelled as `Nat` (each in `[0, 256)` when produced by the
encoders), buffers as `List Nat`.  Machine-integer conversions are
modelled with explicit `% 2^w` where Go performs a conversion
(`uint32(len(data)+8+4+1)` wraps modulo `2^32`; `binary.LittleEndian`
reads give the value of the bytes, which is already `< 2^w`).
-/

namespace UnitdAdapter

/-- Little-endian encoding of `v` into `w` bytes, as `binary.LittleEndian.PutUintN`
writes the low `8*w` bits of `v` byte by byte. -/
def leEnc : Nat → Nat → List Nat
  | 0, _ => []
  | w + 1, v => v % 256 :: leEnc w (v / 256)

/-- Little-endian decoding of a byte list, as `binary.LittleEndian.UintN` reads it. -/
def leDec : List Nat → Nat
  | [] => 0
  | b :: bs => b + 256 * leDec bs

/-- Go slice expression `buf[off : off+len]` on a byte buffer. -/
def slice (buf : List Nat) (off len : Nat) : List Nat :=
  (buf.drop off).take len

theorem leEnc_length (w v : Nat) : (leEnc w v).length = w := by
  induction w generalizing v with
  | zero => rfl
  | succ w ih => simp [leEnc, ih]

theorem leDec_leEnc (w v : Nat) : leDec (leEnc w v) = v % 2 ^ (8 * w) := by
  induction w generalizing v with
  | zero => simp [leEnc, leDec, Nat.mod_one]
  | succ w ih =>
    calc leDec (leEnc (w + 1) v)
        = v % 256 + 256 * (v / 256 % 2 ^ (8 * w)) := by
          simp [leEnc, leDec, ih]
      _ = v % (256 * 2 ^ (8 * w)) := (Nat.mod_mul).symm
      _ = v % 2 ^ (8 * (w + 1)) := by
          congr 1
          have : 8 * (w + 1) = 8 + 8 * w := by ring
          rw [this, pow_add]
          norm_num

/-- Flag byte written by `Append`: `dBit = 1` when `delFlag`, else `0`. -/
def dBit (delFlag : Bool) : Nat :=
  if delFlag then 1 else 0

/-- Bytes appended to the tiny-batch buffer by one call of `adapter.Append`:
a 4-byte little-endian length field holding `uint32(len(data)+8+4+1)`,
then the flag byte, the 8-byte little-endian key, and (when non-empty)
the payload.  Go's `if data != nil` guard writes nothing exactly when the
payload contributes no bytes, so a `List` payload models it faithfully. -/
def encRecord (delFlag : Bool) (k : Nat) (data : List Nat) : List Nat :=
  leEnc 4 (data.length + 8 + 4 + 1) ++ (dBit delFlag :: leEnc 8 k) ++ data

/-- The flag-key-payload region of a record: everything after the 4-byte
length field.  This is the slice `Write` hands to the WAL writer and the
slice the WAL reader hands back to `Recovery`. -/
def recBody (delFlag : Bool) (k : Nat) (data : List Nat) : List Nat :=
  dBit delFlag :: (leEnc 8 k ++ data)

/-- A logical write record as passed to `Append`. -/
structure Rec where
  del : Bool
  key : Nat
  data : List Nat

/-- The flag-key-payload region of a `Rec`. -/
def Rec.body (r : Rec) : List Nat :=
  recBody r.del r.key r.data

/-- State of the tiny batch: the atomic `entryCount` and the byte buffer. -/
structure Batch where
  entryCount : Nat
  buffer : List Nat
deriving DecidableEq

/-- The batch as `init` builds it: zero entries, empty buffer. -/
def emptyBatch : Batch :=
  { entryCount := 0, buffer := [] }

/-- One call of `adapter.Append`: encode the record into the buffer and
increment the entry count (`tinyBatch.incount`). -/
def appendRecord (b : Batch) (delFlag : Bool) (k : Nat) (data : List Nat) : Batch :=
  { entryCount := b.entryCount + 1, buffer := b.buffer ++ encRecord delFlag k data }

/-- The buffer contents after appending a list of records in order. -/
def encodeBatch (recs : List Rec) : List Nat :=
  (recs.map fun r => encRecord r.del r.key r.data).flatten

/-- Batch state after appending a list of records to the fresh batch. -/
def batchOf (recs : List Rec) : Batch :=
  recs.foldl (fun b r => appendRecord b r.del r.key r.data) emptyBatch

theorem encRecord_length (delFlag : Bool) (k : Nat) (data : List Nat) :
    (encRecord delFlag k data).length = data.length + 13 := by
  simp [encRecord, leEnc_length]
  omega

theorem recBody_length (delFlag : Bool) (k : Nat) (data : List Nat) :
    (recBody delFlag k data).length = data.length + 9 := by
  simp [recBody, leEnc_length]
  omega

theorem encRecord_eq (delFlag : Bool) (k : Nat) (data : List Nat) :
    encRecord delFlag k data
      = leEnc 4 (data.length + 8 + 4 + 1) ++ recBody delFlag k data := by
  simp [encRecord, recBody]

/-!
Write-epoch arithmetic.  Instants are nanoseconds since Go's zero `Time`
(January 1, year 1 UTC), as `Nat`; durations are nanoseconds.
-/

/-- Nanoseconds in one millisecond. -/
def msNs : Nat := 1000000

/-- Nanoseconds in one second. -/
def secNs : Nat := 1000000000

/-- Seconds from Go's zero `Time` to the Unix epoch. -/
def unixEpochSec : Nat := 62135596800

/-- Go `t.Truncate(d)` for `d > 0`: round down to a multiple of `d`
since the zero time. -/
def truncT (t d : Nat) : Nat :=
  t - t % d

/-- Go `t.Round(m)` for `m > 0`: round to the nearest multiple of `m`,
halfway values rounding up (away from the zero time). -/
def roundT (t m : Nat) : Nat :=
  ((t + m / 2) / m) * m

/-- Go `t.Unix()`: whole seconds since the Unix epoch (the stored second
count, i.e. the floor). -/
def unixT (t : Nat) : Int :=
  (t / secNs : Nat) - (unixEpochSec : Int)

/-- The function `timeID(dur)` of the adapter, at wall-clock instant `t`:
`time.Now().UTC().Truncate(dur).Round(time.Millisecond).Unix()`. -/
def timeID (dur t : Nat) : Int :=
  unixT (roundT (truncT t dur) msNs)

/-- The function `nexTimeID(dur)` of the adapter, at wall-clock instant `t`:
`time.Now().UTC().Truncate(dur).Add(dur).Round(time.Millisecond).Unix()`. -/
def nexTimeID (dur t : Nat) : Int :=
  unixT (roundT (truncT t dur + dur) msNs)

/-- The current write epoch at instant `t` (the value rounded to
millisecond resolution, before the `Unix()` conversion). -/
def epochCurrent (dur t : Nat) : Nat :=
  roundT (truncT t dur) msNs

/-- The next write epoch at instant `t` (the value rounded to millisecond
resolution, before the `Unix()` conversion). -/
def epochNext (dur t : Nat) : Nat :=
  roundT (truncT t dur + dur) msNs

/-!
The flush path `adapter.Write`.  The WAL writer is the external
collaborator; its outcomes are an oracle.  The channel send/receive pair
around the loop is the write serializer; its rendezvous semantics is
studied separately (`CStep` below), and the sequential model here gives
the serialized region the scoped acquire/release semantics of spec 4.4.
Observable WAL calls are recorded as a trace of events.
-/

/-- Outcomes of the WAL collaborator's calls during one flush. -/
structure WalOracle where
  newWriterErr : Option String
  appendErr : Nat → Option String
  initWriteErr : Option String
  logAppliedErr : Option String

/-- Observable WAL operations issued by `Write`, in order. -/
inductive Event where
  | newWriter : Event
  | append (data : List Nat) : Event
  | initWrite (id : Int) : Event
  | logApplied (id : Int) : Event
deriving DecidableEq

/-- The record loop of `Write`: read the 4-byte length field at `offset`
(as `uint32`), slice `buf[offset+4 : offset+dataLen]`, append it to the
WAL writer, and advance `offset` by `dataLen` (`uint32` addition, hence
the `% 2^32`).  `i` is the loop counter, `n` the remaining iterations
(`a.tinyBatch.count()` at entry).  Returns the error, if any, and the
trace of `append` events issued. -/
def writeLoop (w : WalOracle) (buf : List Nat) (offset i : Nat) :
    Nat → Option String × List Event
  | 0 => (none, [])
  | n + 1 =>
    let dataLen := leDec (slice buf offset 4)
    let data := slice buf (offset + 4) (dataLen - 4)
    match w.appendErr i with
    | some e => (some e, [Event.append data])
    | none =>
      let r := writeLoop w buf ((offset + dataLen) % 2 ^ 32) (i + 1) n
      (r.1, Event.append data :: r.2)

/-- The flush `adapter.Write`, sequentially: returns the error result, the
tiny-batch state after the call, and the trace of WAL events.  `t1` is the
wall-clock instant of the `nexTimeID` call, `t2` of the `timeID` call.
The deferred function (`buffer.Reset()` then lock release) runs on every
exit after the serializer is acquired, so the buffer is emptied on those
paths; `tinyBatch.reset()` (count to zero) runs only after a successful
`SignalInitWrite`. -/
def write (w : WalOracle) (dur t1 t2 : Nat) (st : Batch) :
    Option String × Batch × List Event :=
  if st.entryCount = 0 then (none, st, [])
  else
    match w.newWriterErr with
    | some e => (some e, st, [Event.newWriter])
    | none =>
      let r := writeLoop w st.buffer 0 0 st.entryCount
      match r.1 with
      | some e => (some e, { st with buffer := [] }, Event.newWriter :: r.2)
      | none =>
        match w.initWriteErr with
        | some e =>
          (some e, { st with buffer := [] },
            Event.newWriter :: r.2 ++ [Event.initWrite (nexTimeID dur t1)])
        | none =>
          (w.logAppliedErr, { entryCount := 0, buffer := [] },
            Event.newWriter :: r.2
              ++ [Event.initWrite (nexTimeID dur t1), Event.logApplied (timeID dur t2)])

/-!
The recovery path `adapter.Recovery`.  Go's `map[uint64][]byte` is
modelled as an association list with replace-on-insert semantics.
-/

/-- The pending-write map `map[uint64][]byte`. -/
abbrev KVMap : Type := List (Nat × List Nat)

/-- Go `delete(m, key)`. -/
def kvErase (m : KVMap) (k : Nat) : KVMap :=
  m.filter fun e => e.1 ≠ k

/-- Go `m[key] = msg`: insert or overwrite. -/
def kvInsert (m : KVMap) (k : Nat) (v : List Nat) : KVMap :=
  (k, v) :: kvErase m k

/-- Go `_, exists := m[key]`. -/
def kvContains (m : KVMap) (k : Nat) : Bool :=
  m.any fun e => e.1 = k

/-- Go `m[key]` as an optional lookup. -/
def kvGet (m : KVMap) (k : Nat) : Option (List Nat) :=
  (m.find? fun e => e.1 = k).map fun e => e.2

/-- The body of `Recovery`'s read callback for one logged entry
`logData`: decode `dBit = logData[0]`, `key = LittleEndian.Uint64(logData[1:9])`,
`msg = logData[9:]`; when `dBit == 1` and the key exists, delete it; then
unconditionally execute `m[key] = msg`. -/
def replayEntry (m : KVMap) (logData : List Nat) : KVMap :=
  let dB := logData.headD 0
  let key := leDec (slice logData 1 8)
  let msg := logData.drop 9
  let m1 := if dB = 1 then (if kvContains m key then kvErase m key else m) else m
  kvInsert m1 key msg

/-- The pending-write map built by replaying the logged entries oldest to
newest, as `Recovery`'s reader loop does. -/
def replayAll (entries : List (List Nat)) : KVMap :=
  entries.foldl replayEntry []

/-- Decoding convention of `Recovery` applied to one flag-key-payload
region: the delete flag is `logData[0] == 1`, the key is the little-endian
word of bytes 1 to 8, the payload is the remainder from byte 9 on. -/
def decodeRegion (logData : List Nat) : Bool × Nat × List Nat :=
  (logData.headD 0 = 1, leDec (slice logData 1 8), logData.drop 9)

/-- Observable collaborator operations issued by `Recovery`, in order. -/
inductive RecEvent where
  | mkdir : RecEvent
  | walNew : RecEvent
  | walClose : RecEvent
  | newReader : RecEvent
  | readEntry (d : List Nat) : RecEvent
deriving DecidableEq

/-- Outcomes of the collaborators consulted by `Recovery`: directory
creation, `wal.New` (error and `needLogRecovery` flag), `wal.NewReader`,
the entries the reader presents oldest to newest, and the error, if any,
reported by `r.Read` after delivering them. -/
structure RecoveryEnv where
  mkdirOk : Bool
  walNewErr : Option String
  needLogRecovery : Bool
  readerErr : Option String
  entries : List (List Nat)
  readErr : Option String

/-- The recovery `adapter.Recovery`: returns the pending-write map, the
error result, and the trace of collaborator operations.  Mirrors the
source: mkdir, `wal.New` (closing the WAL on error), the
`!needLogRecovery || reset` early return, `wal.NewReader`, then the
replay loop. -/
def recovery (env : RecoveryEnv) (reset : Bool) :
    KVMap × Option String × List RecEvent :=
  if ¬ env.mkdirOk then
    ([], some "adapter.Open, Unable to create db dir", [RecEvent.mkdir])
  else
    match env.walNewErr with
    | some e => ([], some e, [RecEvent.mkdir, RecEvent.walNew, RecEvent.walClose])
    | none =>
      if ¬ env.needLogRecovery ∨ reset then
        ([], none, [RecEvent.mkdir, RecEvent.walNew])
      else
        match env.readerErr with
        | some e =>
          ([], some e, [RecEvent.mkdir, RecEvent.walNew, RecEvent.newReader])
        | none =>
          (replayAll env.entries, env.readErr,
            [RecEvent.mkdir, RecEvent.walNew, RecEvent.newReader]
              ++ env.entries.map RecEvent.readEntry)

/-!
The write serializer.  `init` creates `writeLockC` with
`make(chan struct{})` — an unbuffered channel.  In Go, a send on an
unbuffered channel completes only by rendezvous with a goroutine that is
concurrently ready to receive.  Each goroutine inside `Write` (past
`NewWriter`) runs: send on `writeLockC`; the serialized WAL-append
region; the deferred receive from `writeLockC`.  The program counters and
the rendezvous step relation model exactly this.
-/

/-- Program counter of a goroutine executing the serialized region of
`Write`: blocked at the channel send, inside the WAL-append region,
at the deferred channel receive, or finished. -/
inductive Pc where
  | atSend : Pc
  | inCrit : Pc
  | atRecv : Pc
  | done : Pc
deriving DecidableEq

/-- Interleaving semantics of the goroutines around the unbuffered
`writeLockC`: a send completes only together with a receive by another
goroutine (rendezvous; the channel has no buffer slot), and a goroutine
in the WAL-append region may finish it and reach its deferred receive. -/
inductive CStep : List Pc → List Pc → Prop where
  | rendezvous (pcs : List Pc) (i j : Nat) (hij : i ≠ j)
      (hi : pcs[i]? = some Pc.atSend) (hj : pcs[j]? = some Pc.atRecv) :
      CStep pcs ((pcs.set i Pc.inCrit).set j Pc.done)
  | finish (pcs : List Pc) (i : Nat) (hi : pcs[i]? = some Pc.inCrit) :
      CStep pcs (pcs.set i Pc.atRecv)

/-- States reachable by any interleaving of the goroutines. -/
def CReach : List Pc → List Pc → Prop :=
  Relation.ReflTransGen CStep

/-!
Connection state checks: `adapter.Open` and the message operations.
The external `memdb` engine handle `a.db` is a pointer; `none` models a
nil handle (adapter not open).  A message operation on a nil handle does
not return an error value to the caller: the method call dereferences the
nil engine, a runtime fault, modelled by the distinguished outcome
`nilDeref`.
-/

/-- Adapter connection state: the engine handle `a.db` (nil when not
open) and the stored configuration. -/
structure AdapterSt where
  db : Option Unit
  config : Option (String × Nat × Nat)
deriving DecidableEq

/-- Outcome of a message operation as observed by its caller. -/
inductive OpOutcome where
  | ok : OpOutcome
  | okKeys (ks : List Nat) : OpOutcome
  | okMsg (payload : List Nat) : OpOutcome
  | engineErr (e : String) : OpOutcome
  | nilDeref : OpOutcome
deriving DecidableEq

/-- The connection phase of `adapter.Open`: the already-connected check,
then config assignment, directory creation and `memdb.Open`, whose
outcomes are oracle parameters. -/
def openAdapter (mkdirOk : Bool) (memdbErr : Option String) (a : AdapterSt)
    (path : String) (size dur : Nat) : Option String × AdapterSt :=
  if a.db.isSome then (some "unitdb adapter is already connected", a)
  else
    let a1 : AdapterSt := { a with config := some (path, size, dur) }
    if ¬ mkdirOk then (some "adapter.Open, Unable to create db dir", a1)
    else
      match memdbErr with
      | some e => (some e, a1)
      | none => (none, { a1 with db := some () })

/-- The operation `adapter.PutMessage`: forwards to `a.db.Set` with no
open-state check; `setErr` is the engine's result. -/
def putMessage (a : AdapterSt) (setErr : Option String)
    (blockId key : Nat) (payload : List Nat) : OpOutcome :=
  match a.db with
  | none => OpOutcome.nilDeref
  | some _ =>
    match setErr with
    | some e => OpOutcome.engineErr e
    | none => OpOutcome.ok

/-- The operation `adapter.GetMessage`: forwards to `a.db.Get` with no
open-state check. -/
def getMessage (a : AdapterSt) (getRes : Except String (List Nat))
    (blockId key : Nat) : OpOutcome :=
  match a.db with
  | none => OpOutcome.nilDeref
  | some _ =>
    match getRes with
    | Except.error e => OpOutcome.engineErr e
    | Except.ok v => OpOutcome.okMsg v

/-- The operation `adapter.DeleteMessage`: forwards to `a.db.Remove` with
no open-state check. -/
def deleteMessage (a : AdapterSt) (removeErr : Option String)
    (blockId key : Nat) : OpOutcome :=
  match a.db with
  | none => OpOutcome.nilDeref
  | some _ =>
    match removeErr with
    | some e => OpOutcome.engineErr e
    | none => OpOutcome.ok

/-- The operation `adapter.Keys`: forwards to `a.db.Keys` with no
open-state check. -/
def keysOp (a : AdapterSt) (engineKeys : List Nat) (blockId : Nat) : OpOutcome :=
  match a.db with
  | none => OpOutcome.nilDeref
  | some _ => OpOutcome.okKeys engineKeys

/-!
Helper lemmas.
-/

theorem encodeBatch_cons (r : Rec) (rs : List Rec) :
    encodeBatch (r :: rs) = encRecord r.del r.key r.data ++ encodeBatch rs := by
  simp [encodeBatch]

theorem encodeBatch_cons_length (r : Rec) (rs : List Rec) :
    (encodeBatch (r :: rs)).length
      = (r.data.length + 13) + (encodeBatch rs).length := by
  rw [encodeBatch_cons]
  simp [encRecord_length]

theorem batchOf_eq_aux (recs : List Rec) :
    ∀ b : Batch,
      recs.foldl (fun b r => appendRecord b r.del r.key r.data) b
        = { entryCount := b.entryCount + recs.length,
            buffer := b.buffer ++ encodeBatch recs } := by
  induction recs with
  | nil => intro b; simp [encodeBatch]
  | cons r rs ih =>
    intro b
    rw [List.foldl_cons, ih]
    simp [appendRecord, encodeBatch_cons]
    omega

theorem batchOf_eq (recs : List Rec) :
    batchOf recs = { entryCount := recs.length, buffer := encodeBatch recs } := by
  rw [batchOf, batchOf_eq_aux]
  simp [emptyBatch]

theorem encRecord_mem_length_le (r : Rec) (recs : List Rec) (h : r ∈ recs) :
    r.data.length + 13 ≤ (encodeBatch recs).length := by
  induction recs with
  | nil => cases h
  | cons x xs ih =>
    rw [encodeBatch_cons_length]
    rcases List.mem_cons.mp h with h1 | h1
    · subst h1; omega
    · have := ih h1; omega

theorem slice_field (pre body rest : List Nat) (v : Nat) :
    slice (pre ++ (leEnc 4 v ++ (body ++ rest))) pre.length 4 = leEnc 4 v := by
  unfold slice
  rw [List.drop_left]
  exact List.take_left' (leEnc_length 4 v)

/-- The per-iteration slicing of `Write`, run over a buffer that is a
batch of encoded records placed after an arbitrary prefix: it produces
exactly the flag-key-payload regions, in order, and no error when every
WAL append succeeds. -/
theorem writeLoop_encodeBatch (w : WalOracle) (happ : ∀ i, w.appendErr i = none) :
    ∀ (recs : List Rec) (pre : List Nat) (i : Nat),
      pre.length + (encodeBatch recs).length < 2 ^ 32 →
      writeLoop w (pre ++ encodeBatch recs) pre.length i recs.length
        = (none, recs.map fun r => Event.append r.body) := by
  intro recs
  induction recs with
  | nil => intro pre i _; simp [writeLoop]
  | cons r rs ih =>
    intro pre i h
    have hlen := encodeBatch_cons_length r rs
    have hbufeq :
        pre ++ encodeBatch (r :: rs)
          = pre ++ (leEnc 4 (r.data.length + 8 + 4 + 1)
              ++ (recBody r.del r.key r.data ++ encodeBatch rs)) := by
      rw [encodeBatch_cons, encRecord_eq, List.append_assoc]
    have hfield :
        slice (pre ++ encodeBatch (r :: rs)) pre.length 4
          = leEnc 4 (r.data.length + 8 + 4 + 1) := by
      rw [hbufeq]; exact slice_field _ _ _ _
    have hL : r.data.length + 8 + 4 + 1 = r.data.length + 13 := by omega
    have hLlt : r.data.length + 13 < 2 ^ 32 := by omega
    have hdataLen :
        leDec (slice (pre ++ encodeBatch (r :: rs)) pre.length 4)
          = r.data.length + 13 := by
      rw [hfield, leDec_leEnc, hL]
      have : (2:Nat) ^ (8 * 4) = 2 ^ 32 := by norm_num
      rw [this]
      exact Nat.mod_eq_of_lt hLlt
    have hregion :
        slice (pre ++ encodeBatch (r :: rs)) (pre.length + 4)
            ((r.data.length + 13) - 4)
          = recBody r.del r.key r.data := by
      unfold slice
      rw [hbufeq]
      rw [← List.drop_drop, List.drop_left,
        List.drop_left' (leEnc_length 4 (r.data.length + 8 + 4 + 1))]
      exact List.take_left' (by rw [recBody_length]; omega)
    have hoff : (pre.length + (r.data.length + 13)) % 2 ^ 32
        = pre.length + (r.data.length + 13) :=
      Nat.mod_eq_of_lt (by omega)
    have hshift :
        pre ++ encodeBatch (r :: rs)
          = (pre ++ encRecord r.del r.key r.data) ++ encodeBatch rs := by
      rw [encodeBatch_cons, List.append_assoc]
    have hprelen :
        (pre ++ encRecord r.del r.key r.data).length
          = pre.length + (r.data.length + 13) := by
      simp [encRecord_length]
    simp only [writeLoop, List.length_cons, hdataLen, hregion, happ i, hoff]
    rw [hshift]
    rw [show pre.length + (r.data.length + 13)
        = (pre ++ encRecord r.del r.key r.data).length from hprelen.symm]
    rw [ih (pre ++ encRecord r.del r.key r.data) (i + 1)
      (by rw [hprelen]; omega)]
    simp [Rec.body]

/-- With every WAL append succeeding, the record loop reports no error and
issues only `append` events. -/
theorem writeLoop_ok (w : WalOracle) (buf : List Nat)
    (happ : ∀ i, w.appendErr i = none) :
    ∀ (n offset i : Nat),
      (writeLoop w buf offset i n).1 = none
        ∧ ∀ e ∈ (writeLoop w buf offset i n).2, ∃ d, e = Event.append d := by
  intro n
  induction n with
  | zero => intro offset i; simp [writeLoop]
  | succ n ih =>
    intro offset i
    have h := ih ((offset + leDec (slice buf offset 4)) % 2 ^ 32) (i + 1)
    simp only [writeLoop, happ i]
    refine ⟨h.1, ?_⟩
    intro e he
    rcases List.mem_cons.mp he with h1 | h1
    · exact ⟨_, h1⟩
    · exact h.2 e h1

theorem truncT_dvd (t d : Nat) : d ∣ truncT t d := by
  have h := Nat.div_add_mod t d
  refine ⟨t / d, ?_⟩
  unfold truncT
  omega

theorem roundT_eq_self (t m : Nat) (hm : 0 < m) (h : m ∣ t) : roundT t m = t := by
  rcases h with ⟨q, rfl⟩
  unfold roundT
  rw [Nat.mul_add_div hm]
  have h2 : m / 2 / m = 0 := Nat.div_eq_of_lt (Nat.div_lt_self hm one_lt_two)
  rw [h2, Nat.add_zero, Nat.mul_comm]

theorem epochNext_eq_epochCurrent_add (dur t : Nat) (hdur : 0 < dur)
    (hms : msNs ∣ dur) : epochNext dur t = epochCurrent dur t + dur := by
  have hmpos : 0 < msNs := by norm_num [msNs]
  have h1 : msNs ∣ truncT t dur := hms.trans (truncT_dvd t dur)
  have h2 : msNs ∣ truncT t dur + dur := Nat.dvd_add h1 hms
  unfold epochNext epochCurrent
  rw [roundT_eq_self _ _ hmpos h1, roundT_eq_self _ _ hmpos h2]

/-!
Concrete fixtures used by the claim theorems and witnesses.
-/

/-- A WAL oracle in which every call succeeds. -/
def wOk : WalOracle :=
  { newWriterErr := none, appendErr := fun _ => none,
    initWriteErr := none, logAppliedErr := none }

/-- A WAL oracle whose first append fails. -/
def wAppendFail : WalOracle :=
  { newWriterErr := none, appendErr := fun _ => some "append failed",
    initWriteErr := none, logAppliedErr := none }

/-- A WAL oracle whose epoch-boundary signal fails. -/
def wInitFail : WalOracle :=
  { newWriterErr := none, appendErr := fun _ => none,
    initWriteErr := some "signal failed", logAppliedErr := none }

/-- Two appended records used as a concrete batch. -/
def demoRecs : List Rec :=
  [{ del := false, key := 1, data := [97] }, { del := true, key := 2, data := [] }]

/-- The WAL contents of the spec's recovery example:
`set(k=1,"a")`, `set(k=2,"b")`, `delete(k=1)` (payload bytes 97 and 98). -/
def tombstoneEntries : List (List Nat) :=
  [recBody false 1 [97], recBody false 2 [98], recBody true 1 []]

/-- A recovery environment holding the tombstone example, with a dirty
shutdown (`needLogRecovery = true`) and no collaborator failures. -/
def tombstoneEnv : RecoveryEnv :=
  { mkdirOk := true, walNewErr := none, needLogRecovery := true,
    readerErr := none, entries := tombstoneEntries, readErr := none }

/-- A recovery environment with a clean WAL but non-empty stored entries. -/
def cleanEnv : RecoveryEnv :=
  { mkdirOk := true, walNewErr := none, needLogRecovery := false,
    readerErr := none, entries := [recBody false 1 [97]], readErr := none }

/-- An adapter that is not open (`a.db` is nil). -/
def closedAdapter : AdapterSt :=
  { db := none, config := none }

/-- An adapter that is already connected. -/
def openedAdapter : AdapterSt :=
  { db := some (), config := none }

/-- Whether a message-operation outcome is an error reported to the
caller. -/
def reportsError : OpOutcome → Bool
  | OpOutcome.engineErr _ => true
  | _ => false

/-!
Claim theorems.
-/

/-- C3: for every record appended with payload `p`, the stored 4-byte
little-endian length field decodes to `len(p) + 13`, while the encoded
region following the length field occupies `len(p) + 9` bytes (one flag
byte, eight key bytes, the payload); and for a buffer holding the `N`
appended records, `Write`'s per-record slice `buf[offset+4 : offset+dataLen]`
with `offset` advanced by `dataLen` yields, in append order, exactly the
flag-key-payload region of each record. -/
theorem write_slicing_reconstructs_records (w : WalOracle) (recs : List Rec)
    (happ : ∀ i, w.appendErr i = none)
    (hbound : (encodeBatch recs).length < 2 ^ 32) :
    (∀ r ∈ recs,
        leDec (slice (encRecord r.del r.key r.data) 0 4) = r.data.length + 13
          ∧ (encRecord r.del r.key r.data).length = 4 + (r.data.length + 9)
          ∧ (recBody r.del r.key r.data).length = r.data.length + 9)
      ∧ writeLoop w (batchOf recs).buffer 0 0 (batchOf recs).entryCount
          = (none, recs.map fun r => Event.append r.body) := by
  constructor
  · intro r hr
    have hle := encRecord_mem_length_le r recs hr
    have hlt : r.data.length + 13 < 2 ^ 32 := lt_of_le_of_lt hle hbound
    refine ⟨?_, by rw [encRecord_length]; omega, recBody_length _ _ _⟩
    have hsl : slice (encRecord r.del r.key r.data) 0 4
        = leEnc 4 (r.data.length + 8 + 4 + 1) := by
      unfold slice
      rw [List.drop_zero, encRecord_eq]
      exact List.take_left' (leEnc_length 4 _)
    rw [hsl, leDec_leEnc]
    have h32 : (2:Nat) ^ (8 * 4) = 2 ^ 32 := by norm_num
    rw [h32]
    have hL : r.data.length + 8 + 4 + 1 = r.data.length + 13 := by omega
    rw [hL]
    exact Nat.mod_eq_of_lt hlt
  · rw [batchOf_eq]
    have h := writeLoop_encodeBatch w happ recs [] 0 (by simpa using hbound)
    simpa using h

/-- Witness for C3 at a concrete two-record batch. -/
theorem write_slicing_witness :
    (∀ i, wOk.appendErr i = none)
      ∧ (encodeBatch demoRecs).length < 2 ^ 32
      ∧ writeLoop wOk (batchOf demoRecs).buffer 0 0 (batchOf demoRecs).entryCount
          = (none, demoRecs.map fun r => Event.append r.body) :=
  ⟨fun _ => rfl, by decide,
    (write_slicing_reconstructs_records wOk demoRecs (fun _ => rfl) (by decide)).2⟩

/-- C9: encoding a record as `Append` lays it out and decoding the region
after the length field as `Recovery` does (flag byte 0, little-endian key
in bytes 1 to 8, payload the remainder) recovers the delete flag, key and
payload exactly. -/
theorem encode_decode_roundtrip (d : Bool) (k : Nat) (p : List Nat)
    (hk : k < 2 ^ 64) :
    decodeRegion (recBody d k p) = (d, k, p) := by
  unfold decodeRegion
  have hflag : decide ((recBody d k p).headD 0 = 1) = d := by
    cases d <;> rfl
  have hkey : leDec (slice (recBody d k p) 1 8) = k := by
    have hsl : slice (recBody d k p) 1 8 = leEnc 8 k :=
      List.take_left' (leEnc_length 8 k)
    rw [hsl, leDec_leEnc]
    have h64 : (2:Nat) ^ (8 * 8) = 2 ^ 64 := by norm_num
    rw [h64]
    exact Nat.mod_eq_of_lt hk
  have hpay : (recBody d k p).drop 9 = p := List.drop_left' (leEnc_length 8 k)
  rw [hflag, hkey, hpay]

/-- Witness for C9 at a concrete record. -/
theorem encode_decode_roundtrip_witness :
    7 < 2 ^ 64 ∧ decodeRegion (recBody true 7 [1, 2]) = (true, 7, [1, 2]) :=
  ⟨by decide, encode_decode_roundtrip true 7 [1, 2] (by decide)⟩

/-- C8: when the tiny batch's entry count is zero, `Write` returns
success immediately with no WAL operation at all (the trace is empty: no
writer opened, no append, no signal) and the batch state unchanged. -/
theorem write_empty_noop (w : WalOracle) (dur t1 t2 : Nat) (st : Batch)
    (h : st.entryCount = 0) :
    write w dur t1 t2 st = (none, st, []) := by
  simp [write, h]

/-- Witness for C8 on the fresh batch. -/
theorem write_empty_noop_witness :
    emptyBatch.entryCount = 0
      ∧ write wOk 1 0 0 emptyBatch = (none, emptyBatch, []) :=
  ⟨rfl, write_empty_noop wOk 1 0 0 emptyBatch rfl⟩

/-- C4 counterexample: appending with the delete flag set and the payload
argument `[42]` writes the payload byte too — the record is 14 bytes,
not the 13 bytes (length field, flag, key) the claim asserts, because
`Append` guards the payload write only with `data != nil`, never with
the delete flag. -/
theorem delete_append_payload_counterexample :
    (encRecord true 0 [42]).length = 14
      ∧ ¬ (encRecord true 0 [42]).length = 13
      ∧ encRecord true 0 [42]
          = leEnc 4 14 ++ (dBit true :: leEnc 8 0) ++ [42] := by
  decide

/-- C4 (amended): for every append with the delete flag set to true and
an empty (nil) payload argument, the encoded record consists only of the
4-byte length field (holding 13), the 1-byte delete flag, and the 8-byte
key — no payload bytes are written. -/
theorem delete_append_empty_payload (k : Nat) :
    encRecord true k [] = leEnc 4 13 ++ (dBit true :: leEnc 8 k)
      ∧ (encRecord true k []).length = 13 := by
  constructor
  · simp [encRecord]
  · rw [encRecord_length]
    rfl

/-- C2: evaluation of `Write` at a flush that fails after the WAL writer
is opened.  On both the append-error and the signal-error path the error
is propagated and the entry count preserved, but the deferred
`buffer.Reset()` empties the buffered record bytes — the batch is not
left un-reset as the claim states, so a retry does not see the same
data. -/
theorem write_error_clears_buffer :
    (write wAppendFail 1 0 0 (batchOf [{ del := false, key := 5, data := [7] }])).1
        = some "append failed"
      ∧ (write wAppendFail 1 0 0 (batchOf [{ del := false, key := 5, data := [7] }])).2.1
          = { entryCount := 1, buffer := [] }
      ∧ (write wInitFail 1 0 0 (batchOf [{ del := false, key := 5, data := [7] }])).1
          = some "signal failed"
      ∧ (write wInitFail 1 0 0 (batchOf [{ del := false, key := 5, data := [7] }])).2.1
          = { entryCount := 1, buffer := [] }
      ∧ (batchOf [{ del := false, key := 5, data := [7] }]).buffer
          = encRecord false 5 [7]
      ∧ ¬ encRecord false 5 [7] = [] := by
  decide

/-- C1: evaluation of `Recovery`'s replay at the spec's example
`[set(1, 0x61), set(2, 0x62), delete(1)]`.  Because `m[key] = msg` runs
unconditionally after the tombstone branch, the delete record reinserts
key 1 with the empty decoded payload: the result keeps key 1, instead of
the claimed `{2: 0x62}`. -/
theorem recovery_delete_reinserts_key :
    (recovery tombstoneEnv false).1 = [(1, []), (2, [98])]
      ∧ kvGet (recovery tombstoneEnv false).1 1 = some []
      ∧ kvContains (recovery tombstoneEnv false).1 1 = true
      ∧ (recovery tombstoneEnv false).2.1 = none := by
  decide

/-- C7: when the WAL opens successfully (after directory creation) and it
reports no recovery needed, or the caller passed `reset = true`,
`Recovery` returns the empty pending-write map and no error, and its
trace shows neither a reader acquisition nor any entry iteration. -/
theorem recovery_clean_start (env : RecoveryEnv) (reset : Bool)
    (hm : env.mkdirOk = true) (hw : env.walNewErr = none)
    (h : env.needLogRecovery = false ∨ reset = true) :
    recovery env reset = ([], none, [RecEvent.mkdir, RecEvent.walNew])
      ∧ RecEvent.newReader ∉ (recovery env reset).2.2
      ∧ ∀ d, RecEvent.readEntry d ∉ (recovery env reset).2.2 := by
  have hrec : recovery env reset = ([], none, [RecEvent.mkdir, RecEvent.walNew]) := by
    rcases h with h | h <;> simp [recovery, hm, hw, h]
  refine ⟨hrec, ?_, ?_⟩
  · rw [hrec]; decide
  · intro d; rw [hrec]; simp

/-- Witness for C7: a clean WAL whose stored entries are nevertheless
non-empty is not read. -/
theorem recovery_clean_start_witness :
    cleanEnv.mkdirOk = true ∧ cleanEnv.walNewErr = none
      ∧ (cleanEnv.needLogRecovery = false ∨ false = true)
      ∧ recovery cleanEnv false = ([], none, [RecEvent.mkdir, RecEvent.walNew]) :=
  ⟨rfl, rfl, Or.inl rfl,
    (recovery_clean_start cleanEnv false rfl rfl (Or.inl rfl)).1⟩

/-- C5: on a successful flush the trace is the WAL appends followed by
`SignalInitWrite` with the next epoch's timeID and then `SignalLogApplied`
with the current epoch's timeID; and when the window is a whole number of
milliseconds (and both wall-clock reads fall in the same window), the next
epoch is the current epoch plus one window, both at millisecond
resolution. -/
theorem write_signal_order (w : WalOracle) (dur t1 t2 : Nat) (st : Batch)
    (hc : ¬ st.entryCount = 0)
    (hnw : w.newWriterErr = none)
    (happ : ∀ i, w.appendErr i = none)
    (hiw : w.initWriteErr = none)
    (hdur : 0 < dur) (hms : msNs ∣ dur)
    (hsame : truncT t1 dur = truncT t2 dur) :
    ∃ evs, (write w dur t1 t2 st).2.2
        = Event.newWriter :: evs
            ++ [Event.initWrite (nexTimeID dur t1), Event.logApplied (timeID dur t2)]
      ∧ (∀ e ∈ evs, ∃ d, e = Event.append d)
      ∧ epochNext dur t1 = epochCurrent dur t2 + dur
      ∧ nexTimeID dur t1 = unixT (epochNext dur t1)
      ∧ timeID dur t2 = unixT (epochCurrent dur t2) := by
  have hloop := writeLoop_ok w st.buffer happ st.entryCount 0 0
  refine ⟨(writeLoop w st.buffer 0 0 st.entryCount).2, ?_, hloop.2, ?_, rfl, rfl⟩
  · simp only [write, hc, if_false, hnw, hiw, hloop.1]
  · rw [epochNext_eq_epochCurrent_add dur t1 hdur hms]
    unfold epochCurrent
    rw [hsame]

/-- Witness for C5 with a one-second window at instant zero. -/
theorem write_signal_order_witness :
    ¬ (batchOf [{ del := false, key := 5, data := [7] }]).entryCount = 0
      ∧ 0 < secNs ∧ msNs ∣ secNs
      ∧ ∃ evs,
          (write wOk secNs 0 0 (batchOf [{ del := false, key := 5, data := [7] }])).2.2
            = Event.newWriter :: evs
                ++ [Event.initWrite (nexTimeID secNs 0), Event.logApplied (timeID secNs 0)]
          ∧ (∀ e ∈ evs, ∃ d, e = Event.append d)
          ∧ epochNext secNs 0 = epochCurrent secNs 0 + secNs
          ∧ nexTimeID secNs 0 = unixT (epochNext secNs 0)
          ∧ timeID secNs 0 = unixT (epochCurrent secNs 0) :=
  ⟨by decide, by decide, ⟨1000, rfl⟩,
    write_signal_order wOk secNs 0 0 (batchOf [{ del := false, key := 5, data := [7] }])
      (by decide) rfl (fun _ => rfl) rfl (by decide) ⟨1000, rfl⟩ rfl⟩

/-- C6: evaluation of the write serializer as the source creates it.
`init` builds `writeLockC` with `make(chan struct{})`, an unbuffered
channel; a send can complete only by rendezvous with a goroutine already
at a receive, and every goroutine reaches its (deferred) receive only
after passing its own send.  Hence from the initial state in which `n`
callers of `Write` sit at the send, no interleaving takes a single step:
no goroutine ever enters the WAL-append region, and `Write` never
completes — rather than the claimed acquire-then-release serialization. -/
theorem serializer_unbuffered_no_flush (n : Nat) (s : List Pc)
    (h : CReach (List.replicate n Pc.atSend) s) :
    s = List.replicate n Pc.atSend ∧ ∀ i : Nat, ¬ s[i]? = some Pc.inCrit := by
  have hrep : ∀ (i : Nat) (x : Pc),
      (List.replicate n Pc.atSend)[i]? = some x → x = Pc.atSend := by
    intro i x hx
    have hmem : x ∈ List.replicate n Pc.atSend := List.getElem?_mem hx
    exact List.eq_of_mem_replicate hmem
  induction h with
  | refl =>
    refine ⟨rfl, ?_⟩
    intro i hi
    exact Pc.noConfusion (hrep i Pc.inCrit hi)
  | tail hr hstep ih =>
    obtain ⟨rfl, -⟩ := ih
    cases hstep with
    | rendezvous i j hij hi hj =>
      exact Pc.noConfusion (hrep j Pc.atRecv hj)
    | finish i hi =>
      exact Pc.noConfusion (hrep i Pc.inCrit hi)

/-- Witness for C6: the initial single-caller state is reachable and
satisfies the conclusion. -/
theorem serializer_unbuffered_witness :
    CReach (List.replicate 1 Pc.atSend) (List.replicate 1 Pc.atSend)
      ∧ (List.replicate 1 Pc.atSend = List.replicate 1 Pc.atSend
        ∧ ∀ i : Nat, ¬ (List.replicate 1 Pc.atSend)[i]? = some Pc.inCrit) :=
  ⟨Relation.ReflTransGen.refl,
    serializer_unbuffered_no_flush 1 (List.replicate 1 Pc.atSend)
      Relation.ReflTransGen.refl⟩

/-- C10 counterexample: `PutMessage` on an adapter that is not open does
not report an error to the caller — the call proceeds into the nil engine
handle (a runtime nil dereference), because none of the message
operations checks the connection state. -/
theorem closed_put_no_error_counterexample :
    putMessage closedAdapter none 1 2 [3] = OpOutcome.nilDeref
      ∧ reportsError (putMessage closedAdapter none 1 2 [3]) = false := by
  decide

/-- C10 (amended): `Open` on an already-connected adapter returns the
connection error and leaves the adapter state unchanged; the message
operations perform no open-state check, and on a non-open adapter each of
put, get, delete and keys dereferences the nil engine handle instead of
reporting an error. -/
theorem connection_state_checks (a b : AdapterSt) (mkdirOk : Bool)
    (memdbErr : Option String) (path : String) (size dur : Nat)
    (setErr removeErr : Option String) (getRes : Except String (List Nat))
    (engineKeys : List Nat) (blockId key : Nat) (payload : List Nat)
    (ha : a.db.isSome = true) (hb : b.db = none) :
    openAdapter mkdirOk memdbErr a path size dur
        = (some "unitdb adapter is already connected", a)
      ∧ putMessage b setErr blockId key payload = OpOutcome.nilDeref
      ∧ getMessage b getRes blockId key = OpOutcome.nilDeref
      ∧ deleteMessage b removeErr blockId key = OpOutcome.nilDeref
      ∧ keysOp b engineKeys blockId = OpOutcome.nilDeref := by
  refine ⟨by simp [openAdapter, ha], ?_, ?_, ?_, ?_⟩ <;>
    simp [putMessage, getMessage, deleteMessage, keysOp, hb]

/-- Witness for C10 (amended) with a connected and a closed adapter. -/
theorem connection_state_checks_witness :
    openedAdapter.db.isSome = true ∧ closedAdapter.db = none
      ∧ (openAdapter true none openedAdapter "p" 1 1
            = (some "unitdb adapter is already connected", openedAdapter)
        ∧ putMessage closedAdapter none 1 2 [3] = OpOutcome.nilDeref
        ∧ getMessage closedAdapter (Except.ok []) 1 2 = OpOutcome.nilDeref
        ∧ deleteMessage closedAdapter none 1 2 = OpOutcome.nilDeref
        ∧ keysOp closedAdapter [] 1 = OpOutcome.nilDeref) :=
  ⟨rfl, rfl,
    connection_state_checks openedAdapter closedAdapter true none "p" 1 1
      none none (Except.ok []) [] 1 2 [3] rfl rfl⟩

end UnitdAdapter
